import Mathlib

/-!
# Verification of the catalog-manager security layer

Shallow embedding of the security/authorization core of the catalog web app:
the request authorizer (`verifyAdmin` in the integrated server), the advanced
rate limiter and SSRF/sanitization helpers (`server-security.js`), the
client-side URL-safety and name sanitizers (`src/utils/security.ts`), the
session-expiry effect (`src/App.tsx`) and the atomic catalog persistence path.

JavaScript strings are modelled as Lean `String` (lists of characters;
`slice`/`charCodeAt` act on characters), JS timestamps and counters as `Nat`,
and the `Map`/`Set` process state as association lists.  The external JSON
codec (`JSON.parse`/`JSON.stringify`) is modelled at the level of JSON values:
the file system maps a path to the JSON value a successful parse of the file
yields.  The SHA-256 digest (`crypto.createHash('sha256')...digest('hex')`) is
an external primitive and is passed to the authorizer as an explicit
`digest : String → String` parameter.
-/

namespace CatalogSec

/-! ## JavaScript string primitives -/

/-- Character class removed by `String.prototype.trim()` (the common JS
whitespace and line-terminator code points). -/
def isJsWhitespace (c : Char) : Bool :=
  c ∈ [' ', '\t', '\n', '\r', '\x0b', '\x0c', ' ', ' ', ' ',
       ' ', ' ', ' ', ' ', ' ', ' ', ' ',
       ' ', ' ', ' ', ' ', ' ', ' ', ' ',
       '　', '﻿']

/-- Drop the leading whitespace run (left half of `trim`). -/
def trimLeftChars (l : List Char) : List Char :=
  l.dropWhile isJsWhitespace

/-- Drop the trailing whitespace run (right half of `trim`). -/
def trimRightChars (l : List Char) : List Char :=
  ((l.reverse).dropWhile isJsWhitespace).reverse

/-- `String.prototype.trim()`. -/
def jsTrim (s : String) : String :=
  String.mk (trimRightChars (trimLeftChars s.data))

/-- `String.prototype.slice(0, n)` (character-level model). -/
def jsSlice (s : String) (n : Nat) : String :=
  String.mk (s.data.take n)

/-- `str.split(sep)[0]`: the prefix before the first occurrence of `sep`. -/
def jsFirstSplit (s : String) (sep : Char) : String :=
  String.mk (s.data.takeWhile (fun c => c ≠ sep))

/-- `String.prototype.startsWith`, character-level. -/
def strStartsWith (s p : String) : Bool :=
  p.data.isPrefixOf s.data

/-- `String.prototype.endsWith`, character-level. -/
def strEndsWith (s p : String) : Bool :=
  p.data.reverse.isPrefixOf s.data.reverse

/-- `String.prototype.toLowerCase` (ASCII-relevant part). -/
def strToLower (s : String) : String :=
  String.mk (s.data.map Char.toLower)

/-- `String.prototype.substring(n)` / `slice(n)`, character-level. -/
def strDrop (s : String) (n : Nat) : String :=
  String.mk (s.data.drop n)

/-- `String.prototype.includes(c)` for a single character. -/
def strContains (s : String) (c : Char) : Bool :=
  s.data.contains c

/-! ## Association lists (JS `Map` / plain-object state) -/

section Assoc
variable {β : Type}

/-- `map.get(k)` on an association list. -/
def assocGet (l : List (String × β)) (k : String) : Option β :=
  match l with
  | [] => none
  | (k', v) :: rest => if k' = k then some v else assocGet rest k

/-- `map.set(k, v)`: replace in place if present, else append (JS `Map` and
plain-object assignment keep the first-insertion position on overwrite). -/
def assocSet (l : List (String × β)) (k : String) (v : β) : List (String × β) :=
  match l with
  | [] => [(k, v)]
  | (k', v') :: rest => if k' = k then (k, v) :: rest else (k', v') :: assocSet rest k v

/-- `map.delete(k)`: remove the (unique) binding for `k`. -/
def assocRemove (l : List (String × β)) (k : String) : List (String × β) :=
  match l with
  | [] => []
  | (k', v') :: rest => if k' = k then rest else (k', v') :: assocRemove rest k

theorem assocGet_assocSet_self (l : List (String × β)) (k : String) (v : β) :
    assocGet (assocSet l k v) k = some v := by
  induction l with
  | nil => simp [assocSet, assocGet]
  | cons hd tl ih =>
    obtain ⟨k', v'⟩ := hd
    by_cases h : k' = k <;> simp [assocSet, assocGet, h, ih]

end Assoc

/-! ## JSON values

A JSON value as produced by `JSON.parse` / held by `express.json`.  JS numbers
are doubles; for the security layer only finiteness matters
(`isFinite(data) ? data : 0` in `sanitizeJsonData`), so a number is modelled
as a finiteness flag together with an abstract (integer-indexed) value. -/

inductive Json where
  | null : Json
  | bool (b : Bool) : Json
  | num (finite : Bool) (val : Int) : Json
  | str (s : String) : Json
  | arr (items : List Json) : Json
  | obj (fields : List (String × Json)) : Json

/-- JS property read `o[k]` for our JSON values: only plain objects expose
the catalog fields (`catalog.categories` on an array or primitive yields
`undefined`). -/
def getField (j : Json) (k : String) : Option Json :=
  match j with
  | .obj fields => assocGet fields k
  | _ => none

/-- Key cleaning in `sanitizeJsonData`:
`key.replace(/[^a-zA-Z0-9_]/g, '').slice(0, 100)`. -/
def cleanKey (k : String) : String :=
  String.mk ((k.data.filter (fun c => c.isAlpha || c.isDigit || c = '_')).take 100)

mutual

/-- `sanitizeJsonData(data, maxDepth, currentDepth)` from `server-security.js`
(the identical copy in `src/utils/security.ts` is the same function):
throws on nesting deeper than `maxDepth`, on arrays longer than 1000, on
objects with more than 100 keys; truncates strings to 10000 characters,
coerces non-finite numbers to 0, and rebuilds objects under cleaned keys
(dropping keys that clean to the empty string). -/
def sanitizeJsonData (data : Json) (maxDepth currentDepth : Nat) : Except String Json :=
  if currentDepth > maxDepth then .error "資料結構過深"
  else
    match data with
    | .null => .ok .null
    | .str s => .ok (.str (jsSlice s 10000))
    | .num finite v => .ok (if finite then .num true v else .num true 0)
    | .bool b => .ok (.bool b)
    | .arr items =>
      if items.length > 1000 then .error "陣列過長"
      else (sanitizeJsonList items maxDepth (currentDepth + 1)).map .arr
    | .obj fields =>
      if fields.length > 100 then .error "物件鍵過多"
      else (sanitizeJsonFields fields maxDepth (currentDepth + 1) []).map .obj

/-- `data.map(item => sanitizeJsonData(item, maxDepth, currentDepth + 1))`
with exception propagation. -/
def sanitizeJsonList (l : List Json) (maxDepth currentDepth : Nat) :
    Except String (List Json) :=
  match l with
  | [] => .ok []
  | x :: xs => do
    let x' ← sanitizeJsonData x maxDepth currentDepth
    let xs' ← sanitizeJsonList xs maxDepth currentDepth
    .ok (x' :: xs')

/-- The `for (const key of keys)` loop of `sanitizeJsonData`'s object branch:
keys whose cleaned form is empty are skipped (their values are not visited);
kept keys are assigned into the result object in order. -/
def sanitizeJsonFields (l : List (String × Json)) (maxDepth currentDepth : Nat)
    (acc : List (String × Json)) : Except String (List (String × Json)) :=
  match l with
  | [] => .ok acc
  | (k, v) :: rest =>
    let ck := cleanKey k
    if ck = "" then sanitizeJsonFields rest maxDepth currentDepth acc
    else do
      let v' ← sanitizeJsonData v maxDepth currentDepth
      sanitizeJsonFields rest maxDepth currentDepth (assocSet acc ck v')

end

/-! ## URL parsing (`new URL(...)`)

A simplified model of the WHATWG `URL` constructor, sufficient for the
scheme/hostname observations the security layer makes: `protocol` is the
lowercased scheme followed by `:`; for `scheme://…` URLs the hostname is the
authority stripped of userinfo and port (IPv6 literals keep their brackets,
as `URL.hostname` does); an absent or empty host makes parsing fail
(the constructor throws).  Hostname case is preserved here; every consumer
in the repository lowercases the hostname itself before inspecting it. -/

structure URLRec where
  protocol : String
  hostname : String
deriving DecidableEq

/-- Split a candidate scheme off the front: letters/digits/`+`/`-`/`.`
(starting with a letter) followed by `:`. -/
def splitScheme (l : List Char) : Option (List Char × List Char) :=
  let scheme := l.takeWhile (fun c => c.isAlpha || c.isDigit || c = '+' || c = '-' || c = '.')
  let rest := l.drop scheme.length
  match scheme.head? with
  | none => none
  | some c0 =>
    if c0.isAlpha then
      match rest with
      | ':' :: rest' => some (scheme, rest')
      | _ => none
    else none

/-- Extract the hostname from an authority component (between `//` and the
first `/`, `?` or `#`): drop `userinfo@`, keep bracketed IPv6 literals whole,
otherwise stop at the port separator `:`. -/
def hostOfAuthority (authority : List Char) : Option (List Char) :=
  let hostport := (authority.reverse.takeWhile (fun c => c ≠ '@')).reverse
  match hostport with
  | '[' :: t =>
    if t.contains ']' then some ('[' :: (t.takeWhile (fun c => c ≠ ']')) ++ [']'])
    else none
  | _ =>
    let host := hostport.takeWhile (fun c => c ≠ ':')
    if host = [] then none else some host

/-- `new URL(s)`: `some` of the parsed record, `none` when the constructor
would throw. -/
def parseURL (s : String) : Option URLRec :=
  match splitScheme s.data with
  | none => none
  | some (scheme, rest) =>
    match rest with
    | '/' :: '/' :: afterSlashes =>
      let authority := afterSlashes.takeWhile (fun c => c ≠ '/' && c ≠ '?' && c ≠ '#')
      match hostOfAuthority authority with
      | none => none
      | some host => some ⟨String.mk (scheme.map Char.toLower) ++ ":", String.mk host⟩
    | _ => some ⟨String.mk (scheme.map Char.toLower) ++ ":", ""⟩

/-- The idiom `url.startsWith('http') ? url : 'https://' + url` used before
every `new URL(...)` call in the repository. -/
def normalizeUrl (url : String) : String :=
  if strStartsWith url "http" then url else "https://" ++ url

/-! ## `src/utils/security.ts` -/

/-- The `/^172\.(1[6-9]|2[0-9]|3[0-1])\./` RFC1918 middle-range test. -/
def is172Private (s : String) : Bool :=
  match s.data with
  | '1' :: '7' :: '2' :: '.' :: a :: b :: '.' :: _ =>
    (a = '1' && ('6' ≤ b && b ≤ '9')) ||
    (a = '2' && b.isDigit) ||
    (a = '3' && (b = '0' || b = '1'))
  | _ => false

/-- `isInternalUrl(url)` from `src/utils/security.ts`: true when the URL's
hostname is localhost, a private/link-local range
(including `fc00:`/`fe80:` prefixes) or a `.local`/`.internal` name;
false when parsing throws. -/
def isInternalUrl (url : String) : Bool :=
  match parseURL (normalizeUrl url) with
  | none => false
  | some u =>
    let hostname := strToLower u.hostname
    if hostname = "localhost" || hostname = "127.0.0.1" || hostname = "::1" then true
    else if strStartsWith hostname "10." || is172Private hostname ||
            strStartsWith hostname "192.168." || strStartsWith hostname "169.254." ||
            strStartsWith hostname "fc00:" || strStartsWith hostname "fe80:" then true
    else if strEndsWith hostname ".local" || strEndsWith hostname ".internal" then true
    else false

/-- `isSafeUrl(url)` from `src/utils/security.ts`: http/https only, not an
internal-network URL, not a dangerous protocol; false when parsing throws. -/
def isSafeUrl (url : String) : Bool :=
  match parseURL (normalizeUrl url) with
  | none => false
  | some u =>
    if u.protocol ≠ "http:" && u.protocol ≠ "https:" then false
    else if isInternalUrl url then false
    else if strToLower u.protocol ∈ ["file:", "javascript:", "data:", "vbscript:"] then false
    else true

/-- The character class `/[<>\"'&]/` removed by the free-text sanitizers. -/
def isHtmlSpecial (c : Char) : Bool :=
  c = '<' || c = '>' || c = '"' || c = '\'' || c = '&'

/-- The cleaned-and-trimmed character list underlying `sanitizeAppName`
(the state just before the final `.slice(0, 100)`). -/
def cleanTrimName (s : String) : List Char :=
  trimRightChars (trimLeftChars (s.data.filter (fun c => !isHtmlSpecial c)))

/-- `sanitizeAppName(name)` from `src/utils/security.ts`:
`name.replace(/[<>\"'&]/g, '').trim().slice(0, 100)`. -/
def sanitizeAppName (name : String) : String :=
  String.mk ((cleanTrimName name).take 100)

/-! ## `server-security.js` -/

/-- Result record of `detectSSRF`. -/
structure SSRFCheck where
  isSSRF : Bool
  reason : Option String := none
deriving DecidableEq

/-- `detectSSRF(url)` from `server-security.js`: flags localhost, the IPv4
private/link-local ranges and `.local`/`.internal` names.  Unlike the
client-side `isInternalUrl`, it has **no** `fc00:`/`fe80:` patterns, and a
URL that fails to parse is flagged (`catch` branch). -/
def detectSSRF (url : String) : SSRFCheck :=
  match parseURL (normalizeUrl url) with
  | none => ⟨true, some "無效的 URL"⟩
  | some u =>
    let hostname := strToLower u.hostname
    if hostname = "localhost" || hostname = "127.0.0.1" || hostname = "::1" then
      ⟨true, some "localhost"⟩
    else if strStartsWith hostname "10." || is172Private hostname ||
            strStartsWith hostname "192.168." || strStartsWith hostname "169.254." then
      ⟨true, some "私有 IP"⟩
    else if strEndsWith hostname ".local" || strEndsWith hostname ".internal" then
      ⟨true, some "內部域名"⟩
    else ⟨false, none⟩

/-- Matching of one whitelist entry after `allowed.replace(/\*/g, '.*')` is
compiled to an anchored regex: `*` matches any character sequence and (as in
the generated regex) `.` matches any single character; other characters match
literally. -/
def globMatch : List Char → List Char → Bool
  | [], [] => true
  | [], _ :: _ => false
  | '*' :: ps, ts =>
    globMatch ps ts ||
      (match ts with
       | [] => false
       | _ :: ts' => globMatch ('*' :: ps) ts')
  | '.' :: ps, _ :: ts => globMatch ps ts
  | '.' :: _, [] => false
  | p :: ps, t :: ts => p = t && globMatch ps ts
  | _ :: _, [] => false
termination_by ps ts => (ts.length, ps.length)

/-- An incoming HTTP request, restricted to the fields the security layer
reads.  `ip`/`remoteAddress` model `req.ip || req.connection.remoteAddress`;
absent headers are `none` (an empty-string header behaves like an absent one
wherever the source tests truthiness first). -/
structure Request where
  ip : Option String
  remoteAddress : Option String
  userAgent : Option String
  authorization : Option String
  xForwardedFor : Option String

/-- `req.ip || req.connection.remoteAddress || 'unknown'`. -/
def effIp (req : Request) : String :=
  ((req.ip).orElse (fun _ => req.remoteAddress)).getD "unknown"

/-- `checkIPWhitelist(req, whitelist)` from `server-security.js`: with an
empty list everything is allowed; otherwise the client IP (first
`X-Forwarded-For` entry when present, else `req.ip || remoteAddress || ''`)
must equal an entry exactly or match a `*`-wildcard entry. -/
def checkIPWhitelist (req : Request) (whitelist : List String) : Bool :=
  if whitelist = [] then true
  else
    let ip := ((req.ip).orElse (fun _ => req.remoteAddress)).getD ""
    let realIp :=
      match req.xForwardedFor with
      | some f => if f = "" then ip else jsTrim (jsFirstSplit f ',')
      | none => ip
    whitelist.any (fun allowed =>
      if allowed = realIp then true
      else if strContains allowed '*' then globMatch allowed.data realIp.data
      else false)

/-- One entry of `AdvancedRateLimiter.store`. -/
structure RLRecord where
  count : Nat
  resetTime : Nat
  requests : List (Nat × String)
  firstRequest : Nat
deriving DecidableEq

/-- The mutable state of `AdvancedRateLimiter`: the per-key store and the
process-lifetime `suspiciousIPs` set. -/
structure RLState where
  store : List (String × RLRecord)
  suspiciousIPs : List String
deriving DecidableEq

/-- Result record of `AdvancedRateLimiter.check`. -/
structure CheckResult where
  allowed : Bool
  retryAfter : Option Nat := none
  reason : Option String := none
deriving DecidableEq

/-- `AdvancedRateLimiter.getKey(req)`: IP plus the first 50 characters of the
User-Agent. -/
def rlKey (req : Request) : String :=
  effIp req ++ ":" ++ jsSlice ((req.userAgent).getD "unknown") 50

/-- `AdvancedRateLimiter.check(req, maxRequests, windowMs, endpoint)` at time
`now`: fixed-window counter keyed by `rlKey`; on window expiry
(`now > resetTime`) the record is re-created; otherwise the count is
incremented, and when it exceeds `maxRequests` the request is rejected with
`retryAfter = ceil((resetTime - now) / 1000)` and the client IP is added to
the suspicious set. -/
def rlCheck (st : RLState) (req : Request) (maxRequests windowMs : Nat)
    (endpoint : String) (now : Nat) : RLState × CheckResult :=
  let key := rlKey req
  let ip := effIp req
  match assocGet st.store key with
  | none =>
    ({ st with store := assocSet st.store key ⟨1, now + windowMs, [(now, endpoint)], now⟩ },
     { allowed := true })
  | some record =>
    if now > record.resetTime then
      ({ st with store := assocSet st.store key ⟨1, now + windowMs, [(now, endpoint)], now⟩ },
       { allowed := true })
    else
      let count := record.count + 1
      let requests := (record.requests ++ [(now, endpoint)]).filter (fun r => now - r.1 < 60000)
      if count > maxRequests then
        ({ store := assocSet st.store key ⟨count, record.resetTime, requests, record.firstRequest⟩,
           suspiciousIPs :=
             if ip ∈ st.suspiciousIPs then st.suspiciousIPs else st.suspiciousIPs ++ [ip] },
         { allowed := false,
           retryAfter := some ((record.resetTime - now + 999) / 1000),
           reason := some "請求過於頻繁" })
      else
        ({ st with store := assocSet st.store key ⟨count, record.resetTime, requests, record.firstRequest⟩ },
         { allowed := true })

/-- `AdvancedRateLimiter.isSuspicious(ip)`. -/
def rlIsSuspicious (st : RLState) (ip : String) : Bool :=
  ip ∈ st.suspiciousIPs

/-- `AdvancedRateLimiter.clear()` (the 5-minute sweep): drops store entries
whose window expired more than 60 s ago; the suspicious-IP set is untouched. -/
def rlClear (st : RLState) (now : Nat) : RLState :=
  { st with store := st.store.filter (fun kv => !(now > kv.2.resetTime + 60000)) }

/-! ## The integrated server: request authorizer (`verifyAdmin`) -/

/-- The possible decisions of `verifyAdmin`, one per `return` site. -/
inductive AuthOutcome where
  | authorized
  | forbiddenIp
  | suspiciousIp
  | serverMisconfigured
  | missingCredential
  | oversizedToken
  | invalidCredential
deriving DecidableEq

/-- The HTTP status each `verifyAdmin` rejection responds with
(`res.status(...)` at the corresponding return site). -/
def statusOf : AuthOutcome → Nat
  | .authorized => 200
  | .forbiddenIp => 403
  | .suspiciousIp => 429
  | .serverMisconfigured => 500
  | .missingCredential => 401
  | .oversizedToken => 400
  | .invalidCredential => 403

/-- The XOR-accumulate comparison loop of `verifyAdmin` (and
`verifyRequestSignature`): `result = 1` on length mismatch, else the OR of
the character-code XORs. -/
def xorAccum (a b : String) : Nat :=
  if a.length ≠ b.length then 1
  else (a.data.zip b.data).foldl (fun r p => r ||| (Nat.xor p.1.toNat p.2.toNat)) 0

/-- `verifyAdmin(req, res, next)` from the integrated server, as a decision
function over the configuration (IP whitelist, `ADMIN_SECRET`), the rate
limiter's suspicious-IP set, and the request.  `digest` stands for the
SHA-256 hex digest `sha256Hex`.  Checks in source order: IP whitelist,
suspicious IP, secret configured, `Bearer` header present, token length
bound (at most 1000), XOR-accumulate digest comparison.  (The
`invalidCredential` response is additionally delayed by a randomized
100–200 ms `setTimeout`, which has no bearing on the decision itself.) -/
def verifyAdmin (whitelist : List String) (adminSecret : String)
    (suspiciousIPs : List String) (digest : String → String) (req : Request) :
    AuthOutcome :=
  let authHeader := (req.authorization).getD ""
  if whitelist ≠ [] ∧ checkIPWhitelist req whitelist = false then .forbiddenIp
  else if effIp req ∈ suspiciousIPs then .suspiciousIp
  else if adminSecret = "" then .serverMisconfigured
  else if ¬ (strStartsWith authHeader "Bearer ") then .missingCredential
  else if (strDrop authHeader 7).length > 1000 then .oversizedToken
  else if xorAccum (digest (strDrop authHeader 7)) (digest adminSecret) ≠ 0 then .invalidCredential
  else .authorized

/-! ## The integrated server: catalog validation -/

/-- Result of `validateCatalogData`. -/
inductive ValidationResult where
  | valid
  | invalid (error : String)
deriving DecidableEq

/-- The per-app field test `!app.f || typeof app.f !== 'string' ||
app.f.length > maxLen`, in positive form: the field must be a non-empty
string of at most `maxLen` characters. -/
def appStrFieldOk (app : Json) (field : String) (maxLen : Nat) : Bool :=
  match getField app field with
  | some (.str s) => s ≠ "" && s.length ≤ maxLen
  | _ => false

/-- The body of `validateCatalogData`'s per-app loop for the app at index
`i` (0-based): the error returned by the first failing check (name shape,
href shape, `detectSSRF`, URL parse + protocol), or `none` when the app
passes. -/
def checkApp (app : Json) (i : Nat) : Option String :=
  if ¬ appStrFieldOk app "name" 100 then
    some ("應用程式 " ++ toString (i + 1) ++ " 的名稱無效")
  else if ¬ appStrFieldOk app "href" 500 then
    some ("應用程式 " ++ toString (i + 1) ++ " 的連結無效")
  else
    match getField app "href" with
    | some (.str href) =>
      let ssrfCheck := detectSSRF href
      if ssrfCheck.isSSRF then
        some ("應用程式 " ++ toString (i + 1) ++ " 的連結不安全（" ++
          ssrfCheck.reason.getD "" ++ "）")
      else
        match parseURL (normalizeUrl href) with
        | some u =>
          if u.protocol ≠ "http:" ∧ u.protocol ≠ "https:" then
            some ("應用程式 " ++ toString (i + 1) ++ " 的連結協議無效")
          else none
        | none => some ("應用程式 " ++ toString (i + 1) ++ " 的連結格式無效")
    | _ => some ("應用程式 " ++ toString (i + 1) ++ " 的連結無效")

/-- The `for (let i = 0; ...)` app loop of `validateCatalogData`: return the
first failing app's error, `valid` when every app passes. -/
def validateApps (apps : List Json) (i : Nat) : ValidationResult :=
  match apps with
  | [] => .valid
  | app :: rest =>
    match checkApp app i with
    | some e => .invalid e
    | none => validateApps rest (i + 1)

/-- `validateCatalogData(catalog)` from the integrated server: shape guard,
`sanitizeJsonData` on a **local copy** (exceptions become validation
failures), array/size checks, then the per-app loop — all of which inspect
the sanitized copy, while the caller keeps using the original body. -/
def validateCatalogData (catalog : Json) : ValidationResult :=
  match catalog with
  | .obj _ | .arr _ =>
    match sanitizeJsonData catalog 10 0 with
    | .error e => .invalid ("資料結構無效：" ++ e)
    | .ok sanitized =>
      match getField sanitized "categories" with
      | some (.arr categories) =>
        match getField sanitized "apps" with
        | some (.arr apps) =>
          if categories.length > 50 then .invalid "分類數量過多（最多 50 個）"
          else if apps.length > 500 then .invalid "應用程式數量過多（最多 500 個）"
          else validateApps apps 0
        | _ => .invalid "apps 必須是陣列"
      | _ => .invalid "categories 必須是陣列"
  | _ => .invalid "無效的 catalog 格式"

/-! ## The integrated server: catalog persistence and the POST gate

The file system is modelled as an association list from paths to the JSON
value a successful parse of the file yields (`JSON.parse ∘ read`); storing a
value models `fs.writeFile(path, JSON.stringify(value, null, 2))`, exploiting
that the external codec satisfies `JSON.parse(JSON.stringify(v)) = v` for
JSON-representable values. -/

/-- Process-level file-system state at the JSON level. -/
def FsState := List (String × Json)

/-- The write path of `app.post('/api/catalog')`: write the serialized
catalog to `CATALOG_FILE_PATH + '.tmp'`, then atomically rename it over
`CATALOG_FILE_PATH`. -/
def writeCatalogAtomic (fs : FsState) (catalogFilePath : String) (catalog : Json) : FsState :=
  let tempPath := catalogFilePath ++ ".tmp"
  let fs1 := assocSet fs tempPath catalog
  match assocGet fs1 tempPath with
  | some v => assocSet (assocRemove fs1 tempPath) catalogFilePath v
  | none => fs1

/-- Response of the POST handler (after the rate-limit and auth gates). -/
inductive PostResult where
  | success
  | badRequest (error : String)
deriving DecidableEq

/-- The validated part of `app.post('/api/catalog')`: validate `req.body`;
on success persist **the original body** atomically (the sanitized copy made
inside `validateCatalogData` is discarded). -/
def postCatalog (fs : FsState) (catalogFilePath : String) (body : Json) :
    FsState × PostResult :=
  match validateCatalogData body with
  | .invalid e => (fs, .badRequest e)
  | .valid => (writeCatalogAtomic fs catalogFilePath body, .success)

/-- The candidate list tried by `app.get('/api/catalog')`. -/
def possiblePaths (catalogFilePath dirname cwd : String) : List String :=
  [catalogFilePath,
   dirname ++ "/dist/catalog.json",
   dirname ++ "/public/catalog.json",
   cwd ++ "/dist/catalog.json",
   cwd ++ "/public/catalog.json"]

/-- The read loop of `app.get('/api/catalog')`: return the first candidate
path whose file exists and parses. -/
def readCatalogRoute (fs : FsState) (paths : List String) : Option Json :=
  match paths with
  | [] => none
  | p :: rest =>
    match assocGet fs p with
    | some v => some v
    | none => readCatalogRoute fs rest

/-- Outcome of the middleware chain in front of the POST handler. -/
inductive PostGate where
  | rateLimited (retryAfter : Nat)
  | auth (outcome : AuthOutcome)
deriving DecidableEq

/-- The middleware chain of `app.post('/api/catalog')`: the advanced rate
limiter (5 requests / 60 s) runs first and answers 429 itself when the
window is exceeded; only allowed requests reach `verifyAdmin`. -/
def postGate (rl : RLState) (whitelist : List String) (adminSecret : String)
    (digest : String → String) (req : Request) (now : Nat) : RLState × PostGate :=
  let checked := rlCheck rl req 5 60000 "/api/catalog" now
  if checked.2.allowed then
    (checked.1, .auth (verifyAdmin whitelist adminSecret checked.1.suspiciousIPs digest req))
  else
    (checked.1, .rateLimited ((checked.2.retryAfter).getD 0))

/-! ## `src/App.tsx`: the session-expiry effect -/

/-- The admin-session effect of `App.tsx` (lines 171–208) as a function of
the configured `ADMIN_HASH`, the current `isAdmin` flag, the stored
`aijob-admin-hash` value, the parsed `aijob-admin-login-time` value and the
current time.  Returns the resulting `isAdmin` flag and whether the three
stored session keys were removed.  A session older than 24 hours, or a
stored digest differing from the configured one, is forced logged-out with
its storage cleared. -/
def sessionEffect (adminHash : String) (isAdmin : Bool) (stored : Option String)
    (loginTime : Option Nat) (now : Nat) : Bool × Bool :=
  if jsTrim adminHash = "" then (false, false)
  else if ¬ isAdmin then (false, false)
  else
    let expired : Bool :=
      match loginTime with
      | some t => now - t > 24 * 60 * 60 * 1000
      | none => false
    if expired then (false, true)
    else if stored ≠ some adminHash then (false, true)
    else (true, false)

/-! ## General-purpose lemmas -/

theorem lor_eq_zero_iff (x y : Nat) : x ||| y = 0 ↔ x = 0 ∧ y = 0 := by
  constructor
  · intro h
    constructor
    · apply Nat.eq_of_testBit_eq
      intro i
      have ht := congrArg (fun n => Nat.testBit n i) h
      simp [Nat.testBit_lor] at ht
      simp [ht.1]
    · apply Nat.eq_of_testBit_eq
      intro i
      have ht := congrArg (fun n => Nat.testBit n i) h
      simp [Nat.testBit_lor] at ht
      simp [ht.2]
  · rintro ⟨rfl, rfl⟩
    rfl

theorem char_toNat_inj {c d : Char} (h : c.toNat = d.toNat) : c = d := by
  have := congrArg Char.ofNat h
  simpa using this

theorem xorFold_eq_zero_iff (l : List (Char × Char)) (acc : Nat) :
    l.foldl (fun r p => r ||| Nat.xor p.1.toNat p.2.toNat) acc = 0 ↔
      acc = 0 ∧ ∀ p ∈ l, p.1 = p.2 := by
  induction l generalizing acc with
  | nil => simp
  | cons hd tl ih =>
    simp only [List.foldl_cons, ih, List.mem_cons]
    constructor
    · rintro ⟨hor, hall⟩
      obtain ⟨hacc, hxor⟩ := (lor_eq_zero_iff _ _).mp hor
      refine ⟨hacc, fun p hp => ?_⟩
      rcases hp with rfl | hp
      · exact char_toNat_inj (Nat.xor_eq_zero.mp hxor)
      · exact hall p hp
    · rintro ⟨rfl, hall⟩
      refine ⟨?_, fun p hp => hall p (Or.inr hp)⟩
      have h1 : hd.1 = hd.2 := hall hd (Or.inl rfl)
      have : Nat.xor hd.1.toNat hd.2.toNat = 0 := Nat.xor_eq_zero.mpr (by rw [h1])
      simp [this]

theorem zip_eq_iff_of_length_eq (l₁ l₂ : List Char) (hlen : l₁.length = l₂.length) :
    (∀ p ∈ l₁.zip l₂, p.1 = p.2) ↔ l₁ = l₂ := by
  induction l₁ generalizing l₂ with
  | nil =>
    cases l₂ with
    | nil => simp
    | cons b t => simp at hlen
  | cons a t ih =>
    cases l₂ with
    | nil => simp at hlen
    | cons b t' =>
      simp only [List.length_cons, Nat.add_right_cancel_iff] at hlen
      simp only [List.zip_cons_cons, List.mem_cons, List.cons.injEq]
      constructor
      · intro h
        refine ⟨h (a, b) (Or.inl rfl), (ih t' hlen).mp fun p hp => h p (Or.inr hp)⟩
      · rintro ⟨rfl, rfl⟩
        intro p hp
        rcases hp with rfl | hp
        · rfl
        · exact (ih t rfl).mpr rfl p hp

/-- The XOR-accumulate comparison computes string equality: `result === 0`
exactly when the two (digest) strings are equal. -/
theorem xorAccum_eq_zero_iff (a b : String) : xorAccum a b = 0 ↔ a = b := by
  unfold xorAccum
  by_cases hlen : a.length = b.length
  · rw [if_neg (by simp [hlen])]
    rw [xorFold_eq_zero_iff, zip_eq_iff_of_length_eq a.data b.data hlen]
    constructor
    · rintro ⟨-, h⟩
      exact String.ext h
    · rintro rfl
      exact ⟨rfl, rfl⟩
  · rw [if_pos (by simpa using hlen)]
    constructor
    · intro h
      exact absurd h one_ne_zero
    · rintro rfl
      exact absurd rfl hlen

theorem xorAccum_self (a : String) : xorAccum a a = 0 :=
  (xorAccum_eq_zero_iff a a).mpr rfl

theorem dropWhile_dropWhile (p : Char → Bool) (l : List Char) :
    (l.dropWhile p).dropWhile p = l.dropWhile p := by
  induction l with
  | nil => rfl
  | cons a t ih =>
    by_cases h : p a <;> simp [List.dropWhile_cons, h, ih]

theorem dropWhile_eq_self_of_head (p : Char → Bool) (l : List Char)
    (h : ∀ a, l.head? = some a → p a = false) : l.dropWhile p = l := by
  cases l with
  | nil => rfl
  | cons a t =>
    have := h a rfl
    simp [List.dropWhile_cons, this]

theorem head_eq_of_append_left {l₁ l₂ t : List Char} (h : l₁ ++ t = l₂)
    (hne : l₁ ≠ []) : l₂.head? = l₁.head? := by
  subst h
  cases l₁ with
  | nil => exact absurd rfl hne
  | cons a s => simp

/-! ## Claim C6: the SSRF guard `isSafeUrl` -/

/-- C6: the SSRF guard `isSafeUrl` returns `false` for
`"http://127.0.0.1/x"`, `"http://10.1.2.3/"` and `"http://foo.internal/"`,
returns `true` for `"https://example.com/x"`, and returns `false` for every
input whose (https-defaulted) URL fails to parse. -/
theorem isSafeUrl_spec :
    isSafeUrl "http://127.0.0.1/x" = false ∧
    isSafeUrl "http://10.1.2.3/" = false ∧
    isSafeUrl "http://foo.internal/" = false ∧
    isSafeUrl "https://example.com/x" = true ∧
    ∀ url : String, parseURL (normalizeUrl url) = none → isSafeUrl url = false := by
  refine ⟨by decide, by decide, by decide, by decide, ?_⟩
  intro url h
  unfold isSafeUrl
  rw [h]

/-- Witness for `isSafeUrl_spec`: the empty string normalizes to
`"https://"`, which has no host and fails to parse, so it is rejected. -/
theorem isSafeUrl_spec_witness :
    parseURL (normalizeUrl "") = none ∧ isSafeUrl "" = false :=
  ⟨by decide, isSafeUrl_spec.2.2.2.2 "" (by decide)⟩

/-! ## Claim C8: client-session expiry boundary -/

/-- C8: with a configured admin digest, a client session whose stored
`loginTimestamp` lies 25 hours in the past is reported invalid and its
stored keys are cleared, while one 23 hours in the past stays valid
provided the stored digest matches the configured one — the boundary is
24 hours since login. -/
theorem session_expiry_24h_boundary (adminHash : String) (stored : Option String)
    (t : Nat) (hconf : jsTrim adminHash ≠ "") :
    sessionEffect adminHash true stored (some t) (t + 25 * 60 * 60 * 1000)
      = (false, true) ∧
    (stored = some adminHash →
      sessionEffect adminHash true stored (some t) (t + 23 * 60 * 60 * 1000)
        = (true, false)) := by
  constructor
  · simp [sessionEffect, hconf, Nat.add_sub_cancel_left]
  · rintro rfl
    simp [sessionEffect, hconf, Nat.add_sub_cancel_left]

/-- Witness for `session_expiry_24h_boundary` at `adminHash = "h"`,
`stored = some "h"`, `t = 0`. -/
theorem session_expiry_24h_boundary_witness :
    sessionEffect "h" true (some "h") (some 0) (25 * 60 * 60 * 1000) = (false, true) ∧
    sessionEffect "h" true (some "h") (some 0) (23 * 60 * 60 * 1000) = (true, false) :=
  ⟨(session_expiry_24h_boundary "h" (some "h") 0 (by decide)).1,
   (session_expiry_24h_boundary "h" (some "h") 0 (by decide)).2 rfl⟩

/-! ## Claim C2: atomic write / read round trip -/

theorem assocGet_writeCatalogAtomic (fs : FsState) (p : String) (c : Json) :
    assocGet (writeCatalogAtomic fs p c) p = some c := by
  simp only [writeCatalogAtomic, assocGet_assocSet_self]

/-- C2: for every catalog that passes validation, a successful
`POST /api/catalog` serializes it, writes the temporary path and atomically
renames over the canonical path, and the subsequent `GET /api/catalog` read
(which tries the canonical path first) returns a catalog equal to the one
written. -/
theorem postCatalog_roundtrip (fs : FsState) (catalogFilePath dirname cwd : String)
    (body : Json) (hvalid : validateCatalogData body = .valid) :
    (postCatalog fs catalogFilePath body).2 = .success ∧
    readCatalogRoute (postCatalog fs catalogFilePath body).1
      (possiblePaths catalogFilePath dirname cwd) = some body := by
  constructor
  · simp [postCatalog, hvalid]
  · simp [postCatalog, hvalid, readCatalogRoute, possiblePaths, assocGet_writeCatalogAtomic]

/-- Sample catalog used by the round-trip witnesses. -/
def demoCatalog : Json :=
  .obj [("categories", .arr [.str "工具"]), ("apps", .arr [])]

/-- Witness for `postCatalog_roundtrip` on a concrete catalog and paths. -/
theorem postCatalog_roundtrip_witness :
    validateCatalogData demoCatalog = .valid ∧
    readCatalogRoute (postCatalog [] "/app/dist/catalog.json" demoCatalog).1
      (possiblePaths "/app/dist/catalog.json" "/app" "/app") = some demoCatalog :=
  ⟨rfl, (postCatalog_roundtrip [] "/app/dist/catalog.json" "/app" "/app" demoCatalog rfl).2⟩

/-! ## Claim C5: the stored catalog is the original body, not the sanitized copy -/

/-- C5: when `POST /api/catalog` accepts a payload, the value persisted under
the canonical path is the original request body; whenever `sanitizeJsonData`
changed anything (key cleaning, string clamping, number coercion), the stored
catalog differs from that sanitized copy — the sanitization performed inside
`validateCatalogData` is local to validation. -/
theorem persisted_catalog_is_unsanitized_body (fs : FsState) (catalogFilePath : String)
    (body sanitized : Json) (hvalid : validateCatalogData body = .valid)
    (_hsan : sanitizeJsonData body 10 0 = .ok sanitized) (hne : sanitized ≠ body) :
    assocGet (postCatalog fs catalogFilePath body).1 catalogFilePath = some body ∧
    assocGet (postCatalog fs catalogFilePath body).1 catalogFilePath ≠ some sanitized := by
  simp only [postCatalog, hvalid]
  refine ⟨assocGet_writeCatalogAtomic _ _ _, ?_⟩
  rw [assocGet_writeCatalogAtomic]
  intro h
  injection h with h'
  exact hne h'.symm

/-- A catalog accepted by validation whose sanitized copy differs: the key
`"x-y"` is cleaned to `"xy"` by `sanitizeJsonData`. -/
def dirtyKeyCatalog : Json :=
  .obj [("categories", .arr [.str "c"]), ("apps", .arr []), ("x-y", .num true 1)]

/-- The sanitized copy of `dirtyKeyCatalog` produced inside validation. -/
def dirtyKeyCatalogSanitized : Json :=
  .obj [("categories", .arr [.str "c"]), ("apps", .arr []), ("xy", .num true 1)]

/-- Witness for `persisted_catalog_is_unsanitized_body`: the dirty-key
catalog passes validation, its sanitized copy differs, and the stored value
is the original body rather than the sanitized copy. -/
theorem persisted_catalog_is_unsanitized_body_witness :
    validateCatalogData dirtyKeyCatalog = .valid ∧
    sanitizeJsonData dirtyKeyCatalog 10 0 = .ok dirtyKeyCatalogSanitized ∧
    assocGet (postCatalog [] "/app/dist/catalog.json" dirtyKeyCatalog).1
      "/app/dist/catalog.json" = some dirtyKeyCatalog ∧
    assocGet (postCatalog [] "/app/dist/catalog.json" dirtyKeyCatalog).1
      "/app/dist/catalog.json" ≠ some dirtyKeyCatalogSanitized :=
  ⟨rfl, rfl,
   (persisted_catalog_is_unsanitized_body [] "/app/dist/catalog.json" dirtyKeyCatalog
      dirtyKeyCatalogSanitized rfl rfl (by simp [dirtyKeyCatalog, dirtyKeyCatalogSanitized])).1,
   (persisted_catalog_is_unsanitized_body [] "/app/dist/catalog.json" dirtyKeyCatalog
      dirtyKeyCatalogSanitized rfl rfl (by simp [dirtyKeyCatalog, dirtyKeyCatalogSanitized])).2⟩

/-! ## Claim C3: fixed-window rate limiting -/

/-- C3: once a key's window count exceeds `maxRequests`, every further check
within the window (`now ≤ resetTime`) is rejected with
`retryAfter = ceil((resetTime - now) / 1000)` — which is at most
`windowMs / 1000` whenever the window is consistent (`resetTime ≤ now +
windowMs`) and `windowMs` is a whole number of seconds, as both configured
endpoint limits (30/60000 and 5/60000) are — and the rejected state still
counts over `maxRequests`, so the rejection persists for the window's
remainder; once `now > resetTime`, the next check resets the window to
`count = 1` with a fresh `resetTime` and is allowed. -/
theorem rateLimiter_fixed_window (st : RLState) (req : Request)
    (maxRequests windowMs : Nat) (endpoint : String) (now : Nat) (record : RLRecord)
    (hrec : assocGet st.store (rlKey req) = some record) :
    (record.count > maxRequests → now ≤ record.resetTime →
      (rlCheck st req maxRequests windowMs endpoint now).2.allowed = false ∧
      (rlCheck st req maxRequests windowMs endpoint now).2.retryAfter
        = some ((record.resetTime - now + 999) / 1000) ∧
      assocGet (rlCheck st req maxRequests windowMs endpoint now).1.store (rlKey req)
        = some ⟨record.count + 1, record.resetTime,
            (record.requests ++ [(now, endpoint)]).filter (fun r => now - r.1 < 60000),
            record.firstRequest⟩ ∧
      (record.resetTime ≤ now + windowMs → 1000 ∣ windowMs →
        (record.resetTime - now + 999) / 1000 ≤ windowMs / 1000)) ∧
    (now > record.resetTime →
      (rlCheck st req maxRequests windowMs endpoint now).2.allowed = true ∧
      assocGet (rlCheck st req maxRequests windowMs endpoint now).1.store (rlKey req)
        = some ⟨1, now + windowMs, [(now, endpoint)], now⟩) := by
  constructor
  · intro hcount hnow
    have h1 : ¬ (now > record.resetTime) := by omega
    have h2 : record.count + 1 > maxRequests := by omega
    refine ⟨?_, ?_, ?_, ?_⟩
    · simp only [rlCheck]
      rw [hrec]
      simp [if_neg h1, if_pos h2]
    · simp only [rlCheck]
      rw [hrec]
      simp [if_neg h1, if_pos h2]
    · simp only [rlCheck]
      rw [hrec]
      simp [if_neg h1, if_pos h2, assocGet_assocSet_self]
    · intro hle hdvd
      obtain ⟨q, rfl⟩ := hdvd
      calc (record.resetTime - now + 999) / 1000
          ≤ (1000 * q + 999) / 1000 := Nat.div_le_div_right (by omega)
        _ = q + 999 / 1000 := Nat.mul_add_div (by norm_num) q 999
        _ = q := by norm_num
        _ = 1000 * q / 1000 := by rw [Nat.mul_div_cancel_left q (by norm_num)]
  · intro hgt
    refine ⟨?_, ?_⟩
    · simp only [rlCheck]
      rw [hrec]
      simp [if_pos hgt]
    · simp only [rlCheck]
      rw [hrec]
      simp [if_pos hgt, assocGet_assocSet_self]

/-- Request used by the rate-limiter and gate witnesses:
IP `1.2.3.4`, user agent `ua`, bearer header present. -/
def demoRequest : Request :=
  ⟨some "1.2.3.4", none, some "ua", some "Bearer x", none⟩

/-- A rate-limit record whose window (ending at 60000) was already exceeded:
6 requests counted against a limit of 5. -/
def demoRLRecord : RLRecord := ⟨6, 60000, [], 0⟩

/-- Rate-limiter state holding `demoRLRecord` under `demoRequest`'s key. -/
def demoRLState : RLState := ⟨[("1.2.3.4:ua", demoRLRecord)], []⟩

/-- Witness for `rateLimiter_fixed_window`: at `now = 30000` inside the
exceeded window the check is rejected with `retryAfter = 30 ≤ 60`; at
`now = 70000`, past the window, the same key is allowed again. -/
theorem rateLimiter_fixed_window_witness :
    (rlCheck demoRLState demoRequest 5 60000 "/api/catalog" 30000).2.allowed = false ∧
    (rlCheck demoRLState demoRequest 5 60000 "/api/catalog" 30000).2.retryAfter = some 30 ∧
    (60000 - 30000 + 999) / 1000 ≤ 60000 / 1000 ∧
    (rlCheck demoRLState demoRequest 5 60000 "/api/catalog" 70000).2.allowed = true := by
  have h := rateLimiter_fixed_window demoRLState demoRequest 5 60000 "/api/catalog" 30000
    demoRLRecord rfl
  have h1 := h.1 (by decide) (by decide)
  have h2 := rateLimiter_fixed_window demoRLState demoRequest 5 60000 "/api/catalog" 70000
    demoRLRecord rfl
  exact ⟨h1.1, h1.2.1, h1.2.2.2 (by decide) ⟨60, rfl⟩, (h2.2 (by decide)).1⟩

/-! ## Claim C1: the request authorizer's check order and outcome classes -/

/-- A request carrying an oversized (1001-character) bearer token. -/
def oversizedRequest : Request :=
  ⟨some "1.2.3.4", none, some "ua",
   some ("Bearer " ++ String.mk (List.replicate 1001 'x')), none⟩

set_option maxRecDepth 8192 in
/-- C1 counterexample: a request whose bearer token exceeds the 1000-character
bound is answered by `verifyAdmin` with a rejection (HTTP 400) that is none of
the five classes the claim allows — the claim's outcome taxonomy misses the
oversized-token rejection. -/
theorem verifyAdmin_oversized_escapes_claimed_classes :
    verifyAdmin [] "sek" [] (fun s => s) oversizedRequest = .oversizedToken ∧
    statusOf .oversizedToken = 400 ∧
    AuthOutcome.oversizedToken ∉
      ([.authorized, .forbiddenIp, .suspiciousIp, .serverMisconfigured,
        .missingCredential, .invalidCredential] : List AuthOutcome) := by
  refine ⟨by decide, rfl, by decide⟩

/-- C1 (amended): `verifyAdmin` evaluates its preconditions in exactly the
claimed order, short-circuiting on the first failure — (a) IP allow-list when
configured, (b) suspicious IP, (c) secret configured, (d) `Bearer` header
present, then the token-length bound, (e) XOR-accumulate comparison of the
digests (which holds exactly when the digests are equal) — and the outcome is
authorization or exactly one of forbidden-ip (403), suspicious-ip (429),
server-misconfigured (500), missing-credential (401), oversized-token (400),
invalid-credential (403). -/
theorem verifyAdmin_check_order (whitelist : List String) (adminSecret : String)
    (suspiciousIPs : List String) (digest : String → String) (req : Request) :
    (verifyAdmin whitelist adminSecret suspiciousIPs digest req = .forbiddenIp ↔
      (whitelist ≠ [] ∧ checkIPWhitelist req whitelist = false)) ∧
    (verifyAdmin whitelist adminSecret suspiciousIPs digest req = .suspiciousIp ↔
      (¬ (whitelist ≠ [] ∧ checkIPWhitelist req whitelist = false) ∧
       effIp req ∈ suspiciousIPs)) ∧
    (verifyAdmin whitelist adminSecret suspiciousIPs digest req = .serverMisconfigured ↔
      (¬ (whitelist ≠ [] ∧ checkIPWhitelist req whitelist = false) ∧
       effIp req ∉ suspiciousIPs ∧ adminSecret = "")) ∧
    (verifyAdmin whitelist adminSecret suspiciousIPs digest req = .missingCredential ↔
      (¬ (whitelist ≠ [] ∧ checkIPWhitelist req whitelist = false) ∧
       effIp req ∉ suspiciousIPs ∧ adminSecret ≠ "" ∧
       strStartsWith ((req.authorization).getD "") "Bearer " = false)) ∧
    (verifyAdmin whitelist adminSecret suspiciousIPs digest req = .oversizedToken ↔
      (¬ (whitelist ≠ [] ∧ checkIPWhitelist req whitelist = false) ∧
       effIp req ∉ suspiciousIPs ∧ adminSecret ≠ "" ∧
       strStartsWith ((req.authorization).getD "") "Bearer " = true ∧
       (strDrop ((req.authorization).getD "") 7).length > 1000)) ∧
    (verifyAdmin whitelist adminSecret suspiciousIPs digest req = .invalidCredential ↔
      (¬ (whitelist ≠ [] ∧ checkIPWhitelist req whitelist = false) ∧
       effIp req ∉ suspiciousIPs ∧ adminSecret ≠ "" ∧
       strStartsWith ((req.authorization).getD "") "Bearer " = true ∧
       ¬ (strDrop ((req.authorization).getD "") 7).length > 1000 ∧
       xorAccum (digest (strDrop ((req.authorization).getD "") 7))
         (digest adminSecret) ≠ 0)) ∧
    (verifyAdmin whitelist adminSecret suspiciousIPs digest req = .authorized ↔
      (¬ (whitelist ≠ [] ∧ checkIPWhitelist req whitelist = false) ∧
       effIp req ∉ suspiciousIPs ∧ adminSecret ≠ "" ∧
       strStartsWith ((req.authorization).getD "") "Bearer " = true ∧
       ¬ (strDrop ((req.authorization).getD "") 7).length > 1000 ∧
       xorAccum (digest (strDrop ((req.authorization).getD "") 7))
         (digest adminSecret) = 0)) ∧
    (xorAccum (digest (strDrop ((req.authorization).getD "") 7)) (digest adminSecret) = 0 ↔
      digest (strDrop ((req.authorization).getD "") 7) = digest adminSecret) ∧
    statusOf .missingCredential = 401 ∧ statusOf .invalidCredential = 403 ∧
    statusOf .forbiddenIp = 403 ∧ statusOf .suspiciousIp = 429 ∧
    statusOf .serverMisconfigured = 500 ∧ statusOf .oversizedToken = 400 := by
  simp only [verifyAdmin]
  by_cases hA : whitelist ≠ [] ∧ checkIPWhitelist req whitelist = false
  · rw [if_pos hA]
    simp [hA, statusOf, xorAccum_eq_zero_iff]
  · rw [if_neg hA]
    by_cases hB : effIp req ∈ suspiciousIPs
    · rw [if_pos hB]
      simp [hA, hB, statusOf, xorAccum_eq_zero_iff]
    · rw [if_neg hB]
      by_cases hC : adminSecret = ""
      · rw [if_pos hC]
        simp [hA, hB, hC, statusOf, xorAccum_eq_zero_iff]
      · rw [if_neg hC]
        by_cases hD : strStartsWith ((req.authorization).getD "") "Bearer " = true
        · rw [if_neg (by simp [hD])]
          by_cases hE : (strDrop ((req.authorization).getD "") 7).length > 1000
          · rw [if_pos hE]
            simp [hA, hB, hC, hD, hE, statusOf, xorAccum_eq_zero_iff]
          · rw [if_neg hE]
            by_cases hF : xorAccum (digest (strDrop ((req.authorization).getD "") 7))
                (digest adminSecret) = 0
            · rw [if_neg (by simp [hF])]
              have hF' := (xorAccum_eq_zero_iff _ _).mp hF
              simp [hA, hB, hC, hD, hE, hF, hF', statusOf, xorAccum_self]
            · rw [if_pos hF]
              have hF' : digest (strDrop ((req.authorization).getD "") 7) ≠ digest adminSecret :=
                fun h => hF ((xorAccum_eq_zero_iff _ _).mpr h)
              simp [hA, hB, hC, hD, hE, hF, hF', statusOf]
        · rw [if_pos hD]
          simp [hA, hB, hC, hD, statusOf, xorAccum_eq_zero_iff]

/-! ## Claim C4: structural bounds of the payload sanitizer -/

/-- A catalog whose only category name is a single generic string passes
validation whatever that string is: no validation decision inspects a
category string's content or length. -/
theorem validate_single_string_category (s : String) :
    validateCatalogData (.obj [("categories", .arr [.str s]), ("apps", .arr [])])
      = .valid := rfl

/-- C4 counterexample: a payload containing a 10001-character string (as a
category name) is **accepted** by `validateCatalogData` — `sanitizeJsonData`
silently truncates over-long strings to 10000 characters instead of
rejecting them. -/
theorem oversized_string_payload_accepted :
    (String.mk (List.replicate 10001 'a')).length > 10000 ∧
    validateCatalogData
      (.obj [("categories", .arr [.str (String.mk (List.replicate 10001 'a'))]),
             ("apps", .arr [])]) = .valid :=
  ⟨by
     show (List.replicate 10001 'a').length > 10000
     rw [List.length_replicate]
     norm_num,
   validate_single_string_category _⟩

/-- C4 (amended): exceeding the depth (>10), array-length (>1000) or
object-key (>100) bound makes `sanitizeJsonData` raise the corresponding
error, which `validateCatalogData` turns into a rejection; a string longer
than 10000 characters, however, is silently truncated to 10000 (`slice`),
not rejected. -/
theorem sanitize_bounds_reject_but_strings_truncate :
    (∀ items : List Json, items.length > 1000 →
      sanitizeJsonData (.arr items) 10 0 = .error "陣列過長") ∧
    (∀ fields : List (String × Json), fields.length > 100 →
      sanitizeJsonData (.obj fields) 10 0 = .error "物件鍵過多") ∧
    (∀ j : Json, ∀ d : Nat, d > 10 → sanitizeJsonData j 10 d = .error "資料結構過深") ∧
    (∀ s : String, sanitizeJsonData (.str s) 10 0 = .ok (.str (jsSlice s 10000))) ∧
    (∀ e : String, ∀ fields : List (String × Json),
      sanitizeJsonData (.obj fields) 10 0 = .error e →
      validateCatalogData (.obj fields) = .invalid ("資料結構無效：" ++ e)) := by
  refine ⟨?_, ?_, ?_, ?_, ?_⟩
  · intro items h
    rw [sanitizeJsonData]
    simp [h]
  · intro fields h
    rw [sanitizeJsonData]
    simp [h]
  · intro j d h
    cases j <;> (rw [sanitizeJsonData]; simp [h])
  · intro s
    rw [sanitizeJsonData]
    simp
  · intro e fields h
    simp [validateCatalogData, h]

/-- Witness for `sanitize_bounds_reject_but_strings_truncate`: a 1001-element
array, a 101-key object (also pushed through `validateCatalogData`), a value
at nesting depth 11, and a string are all handled as stated. -/
theorem sanitize_bounds_reject_but_strings_truncate_witness :
    sanitizeJsonData (.arr (List.replicate 1001 .null)) 10 0 = .error "陣列過長" ∧
    sanitizeJsonData (.obj (List.replicate 101 ("k", .null))) 10 0 = .error "物件鍵過多" ∧
    sanitizeJsonData .null 10 11 = .error "資料結構過深" ∧
    sanitizeJsonData (.str "a") 10 0 = .ok (.str (jsSlice "a" 10000)) ∧
    validateCatalogData (.obj (List.replicate 101 ("k", .null)))
      = .invalid ("資料結構無效：" ++ "物件鍵過多") :=
  ⟨sanitize_bounds_reject_but_strings_truncate.1 _
     (by rw [List.length_replicate]; norm_num),
   sanitize_bounds_reject_but_strings_truncate.2.1 _
     (by rw [List.length_replicate]; norm_num),
   sanitize_bounds_reject_but_strings_truncate.2.2.1 .null 11 (by norm_num),
   sanitize_bounds_reject_but_strings_truncate.2.2.2.1 "a",
   sanitize_bounds_reject_but_strings_truncate.2.2.2.2 "物件鍵過多" _
     (sanitize_bounds_reject_but_strings_truncate.2.1 _
       (by rw [List.length_replicate]; norm_num))⟩

/-! ## Claim C9: link-local hostnames at catalog write time -/

/-- An app object whose `href` parses to a URL with an IPv4 link-local
(`169.254.0.0/16`) hostname. -/
def linkLocal169 (app : Json) : Prop :=
  ∃ href u, getField app "href" = some (.str href) ∧
    parseURL (normalizeUrl href) = some u ∧
    strStartsWith (strToLower u.hostname) "169.254." = true

theorem detectSSRF_169254 (url : String) (u : URLRec)
    (hparse : parseURL (normalizeUrl url) = some u)
    (hstart : strStartsWith (strToLower u.hostname) "169.254." = true) :
    (detectSSRF url).isSSRF = true := by
  simp only [detectSSRF]
  rw [hparse]
  simp only [hstart, Bool.or_true]
  split
  · rfl
  · rfl

theorem checkApp_some_of_linkLocal169 (app : Json) (i : Nat)
    (h : linkLocal169 app) : ∃ e, checkApp app i = some e := by
  obtain ⟨href, u, hget, hparse, hstart⟩ := h
  simp only [checkApp]
  split
  · exact ⟨_, rfl⟩
  · split
    · exact ⟨_, rfl⟩
    · rw [hget]
      have hs := detectSSRF_169254 href u hparse hstart
      simp only [hs, eq_self_iff_true, if_true]
      exact ⟨_, rfl⟩

theorem validateApps_ne_valid_of_mem (apps : List Json) :
    ∀ i app, app ∈ apps → linkLocal169 app → validateApps apps i ≠ .valid := by
  induction apps with
  | nil =>
    intro i app hmem
    simp at hmem
  | cons hd tl ih =>
    intro i app hmem hll
    rcases List.mem_cons.mp hmem with rfl | hmem'
    · obtain ⟨e, he⟩ := checkApp_some_of_linkLocal169 app i hll
      simp [validateApps, he]
    · simp only [validateApps]
      cases hchk : checkApp hd i with
      | some e => simp
      | none => exact ih (i + 1) app hmem'  hll

/-- C9 counterexample: an app whose `href` hostname is the IPv6 link-local
literal `[fe80::1]` is **not** flagged by the server-side `detectSSRF`
(which has no `fe80:` pattern, unlike the client-side `isInternalUrl`), and
a catalog containing it passes `validateCatalogData`. -/
theorem ipv6_linklocal_href_accepted :
    parseURL "http://[fe80::1]/" = some ⟨"http:", "[fe80::1]"⟩ ∧
    (detectSSRF "http://[fe80::1]/").isSSRF = false ∧
    validateCatalogData
      (.obj [("categories", .arr []),
             ("apps", .arr [.obj [("name", .str "a"),
                                  ("href", .str "http://[fe80::1]/")]])]) = .valid :=
  ⟨by decide, by decide, by decide⟩

/-- C9 (amended): the server-side write-time URL check rejects IPv4
link-local hostnames — every href parsing to a hostname in `169.254.0.0/16`
is flagged by `detectSSRF`, every app list containing such an app fails the
validation loop, and any payload whose sanitized `apps` array contains such
an app is rejected by `validateCatalogData`; IPv6 link-local (`fe80::/10`)
hostnames, however, are not covered by the server-side check. -/
theorem ipv4_linklocal_href_rejected :
    (∀ url u, parseURL (normalizeUrl url) = some u →
      strStartsWith (strToLower u.hostname) "169.254." = true →
      (detectSSRF url).isSSRF = true) ∧
    (∀ apps i app, app ∈ apps → linkLocal169 app → validateApps apps i ≠ .valid) ∧
    (∀ j s apps, sanitizeJsonData j 10 0 = .ok s →
      getField s "apps" = some (.arr apps) →
      (∃ app ∈ apps, linkLocal169 app) → validateCatalogData j ≠ .valid) := by
  refine ⟨detectSSRF_169254, fun apps i app => validateApps_ne_valid_of_mem apps i app, ?_⟩
  intro j s apps hsan hfield hex hvalid
  obtain ⟨app, hmem, hll⟩ := hex
  have hne := validateApps_ne_valid_of_mem apps 0 app hmem hll
  cases j with
  | obj fields =>
    simp only [validateCatalogData, hsan] at hvalid
    rcases hcat : getField s "categories" with - | cval
    · simp only [hcat] at hvalid
      simp at hvalid
    · simp only [hcat] at hvalid
      cases cval with
      | arr cats =>
        simp only [hfield] at hvalid
        split at hvalid
        · simp at hvalid
        · split at hvalid
          · simp at hvalid
          · exact hne hvalid
      | null => simp at hvalid
      | bool b => simp at hvalid
      | num f v => simp at hvalid
      | str t => simp at hvalid
      | obj o => simp at hvalid
  | arr items =>
    simp only [validateCatalogData, hsan] at hvalid
    rcases hcat : getField s "categories" with - | cval
    · simp only [hcat] at hvalid
      simp at hvalid
    · simp only [hcat] at hvalid
      cases cval with
      | arr cats =>
        simp only [hfield] at hvalid
        split at hvalid
        · simp at hvalid
        · split at hvalid
          · simp at hvalid
          · exact hne hvalid
      | null => simp at hvalid
      | bool b => simp at hvalid
      | num f v => simp at hvalid
      | str t => simp at hvalid
      | obj o => simp at hvalid
  | null => simp [validateCatalogData] at hvalid
  | bool b => simp [validateCatalogData] at hvalid
  | num f v => simp [validateCatalogData] at hvalid
  | str t => simp [validateCatalogData] at hvalid

/-- Witness for `ipv4_linklocal_href_rejected`: the concrete href
`"http://169.254.1.1/"` is flagged and a catalog containing it is rejected. -/
theorem ipv4_linklocal_href_rejected_witness :
    (detectSSRF "http://169.254.1.1/").isSSRF = true ∧
    validateCatalogData
      (.obj [("categories", .arr []),
             ("apps", .arr [.obj [("name", .str "a"),
                                  ("href", .str "http://169.254.1.1/")]])]) ≠ .valid := by
  constructor
  · exact ipv4_linklocal_href_rejected.1 "http://169.254.1.1/" ⟨"http:", "169.254.1.1"⟩
      (by decide) (by decide)
  · exact ipv4_linklocal_href_rejected.2.2 _
      (.obj [("categories", .arr []),
             ("apps", .arr [.obj [("name", .str "a"),
                                  ("href", .str "http://169.254.1.1/")]])])
      [.obj [("name", .str "a"), ("href", .str "http://169.254.1.1/")]]
      rfl rfl
      ⟨.obj [("name", .str "a"), ("href", .str "http://169.254.1.1/")],
       List.mem_singleton_self _,
       "http://169.254.1.1/", ⟨"http:", "169.254.1.1"⟩, rfl, by decide, by decide⟩

/-! ## Claim C7: permanence of the suspicious-IP flag -/

theorem rlCheck_suspicious_mono (st : RLState) (req : Request)
    (maxRequests windowMs : Nat) (endpoint : String) (now : Nat) (ip : String)
    (h : ip ∈ st.suspiciousIPs) :
    ip ∈ (rlCheck st req maxRequests windowMs endpoint now).1.suspiciousIPs := by
  simp only [rlCheck]
  split
  · exact h
  · split
    · exact h
    · split
      · dsimp only
        split
        · exact h
        · exact List.mem_append_left _ h
      · exact h

/-- Rate-limiter state with IP `1.2.3.4` already flagged suspicious and its
window (ending at 60000) already exceeded (count 6 of limit 5). -/
def flaggedRLState : RLState := ⟨[("1.2.3.4:ua", ⟨6, 60000, [], 0⟩)], ["1.2.3.4"]⟩

/-- C7 counterexample: a mutating request from the flagged IP that arrives
while its rate-limit window is still exceeded is answered by the rate-limit
middleware (429 with `retryAfter`), **not** by the authorizer with the
suspicious-ip outcome — `verifyAdmin` never runs for it. -/
theorem suspicious_ip_rejected_by_rate_limiter_first :
    rlIsSuspicious flaggedRLState (effIp demoRequest) = true ∧
    (postGate flaggedRLState [] "sek" (fun s => s) demoRequest 30000).2
      = .rateLimited 30 ∧
    (postGate flaggedRLState [] "sek" (fun s => s) demoRequest 30000).2
      ≠ .auth .suspiciousIp :=
  ⟨by decide, by decide, by decide⟩

/-- C7 (amended): the suspicious-IP flag is permanent — `check` never removes
an IP from the suspicious set and the periodic `clear()` sweep leaves the set
untouched — and every mutating request from a flagged IP that reaches the
authorizer (i.e. passes the per-endpoint rate-limit check and the IP
allow-list) is rejected with the suspicious-ip outcome, in any later window;
requests that fail the rate-limit check are rejected earlier by the
rate-limit middleware itself. -/
theorem suspicious_flag_permanent (st : RLState) (req : Request)
    (maxRequests windowMs : Nat) (endpoint : String) (now : Nat) :
    (∀ ip, ip ∈ st.suspiciousIPs →
      ip ∈ (rlCheck st req maxRequests windowMs endpoint now).1.suspiciousIPs) ∧
    (rlClear st now).suspiciousIPs = st.suspiciousIPs ∧
    (∀ whitelist adminSecret digest,
      effIp req ∈ st.suspiciousIPs →
      (rlCheck st req 5 60000 "/api/catalog" now).2.allowed = true →
      (whitelist = [] ∨ checkIPWhitelist req whitelist = true) →
      (postGate st whitelist adminSecret digest req now).2 = .auth .suspiciousIp) := by
  refine ⟨fun ip h => rlCheck_suspicious_mono st req maxRequests windowMs endpoint now ip h,
    rfl, ?_⟩
  intro whitelist adminSecret digest hsus hallow hwl
  have hmono := rlCheck_suspicious_mono st req 5 60000 "/api/catalog" now (effIp req) hsus
  have hnotA : ¬ (whitelist ≠ [] ∧ checkIPWhitelist req whitelist = false) := by
    rcases hwl with rfl | hh
    · simp
    · simp [hh]
  simp only [postGate]
  rw [if_pos hallow]
  simp only [verifyAdmin]
  rw [if_neg hnotA, if_pos hmono]

/-- Witness for `suspicious_flag_permanent`: the flag survives a further
check and a sweep, and in a fresh window (empty store) the gate of
`POST /api/catalog` rejects the flagged IP with suspicious-ip. -/
theorem suspicious_flag_permanent_witness :
    "1.2.3.4" ∈ (rlCheck flaggedRLState demoRequest 5 60000 "/api/catalog"
      30000).1.suspiciousIPs ∧
    (rlClear flaggedRLState 999999).suspiciousIPs = flaggedRLState.suspiciousIPs ∧
    (postGate ⟨[], ["1.2.3.4"]⟩ [] "sek" (fun s => s) demoRequest 30000).2
      = .auth .suspiciousIp :=
  ⟨(suspicious_flag_permanent flaggedRLState demoRequest 5 60000 "/api/catalog" 30000).1
     "1.2.3.4" (by decide),
   (suspicious_flag_permanent flaggedRLState demoRequest 5 60000 "/api/catalog" 999999).2.1,
   (suspicious_flag_permanent ⟨[], ["1.2.3.4"]⟩ demoRequest 5 60000 "/api/catalog" 30000).2.2
     [] "sek" (fun s => s) (by decide) (by decide) (Or.inl rfl)⟩

/-! ## Claim C10: idempotence of `sanitizeAppName` -/

/-- A 101-character name whose cleaned, trimmed form gets truncated at a
position that leaves a trailing space. -/
def spaceTruncName : String := String.mk (List.replicate 99 'a' ++ [' ', 'b'])

/-- C10 counterexample: `sanitizeAppName` is **not** idempotent — truncating
the trimmed string to 100 characters can expose a trailing space that the
second pass trims away (`sanitizeAppName spaceTruncName` has 100 characters,
applying it again gives 99). -/
theorem sanitizeAppName_not_idempotent :
    sanitizeAppName (sanitizeAppName spaceTruncName) ≠ sanitizeAppName spaceTruncName := by
  decide

theorem mem_cleanTrimName {a : Char} {s : String} (h : a ∈ cleanTrimName s) :
    a ∈ s.data.filter (fun c => !isHtmlSpecial c) := by
  unfold cleanTrimName trimRightChars trimLeftChars at h
  rw [List.mem_reverse] at h
  have h2 := (List.dropWhile_sublist isJsWhitespace).subset h
  rw [List.mem_reverse] at h2
  exact (List.dropWhile_sublist isJsWhitespace).subset h2

/-- `trim`'s right half only removes characters from the end: the result,
extended by what was dropped, re-forms the input. -/
theorem trimRightChars_front (l : List Char) : ∃ t, trimRightChars l ++ t = l := by
  obtain ⟨t, ht⟩ := (List.dropWhile_suffix isJsWhitespace :
    List.dropWhile isJsWhitespace l.reverse <:+ l.reverse)
  refine ⟨t.reverse, ?_⟩
  unfold trimRightChars
  rw [← List.reverse_append, ht, List.reverse_reverse]

/-- C10 (amended): `sanitizeAppName` is idempotent on every input whose
cleaned and trimmed form is at most 100 characters, i.e. whenever the final
`slice(0, 100)` does not truncate; in general the truncation can leave
trailing whitespace that breaks idempotence. -/
theorem sanitizeAppName_idempotent_without_truncation (s : String)
    (hlen : (cleanTrimName s).length ≤ 100) :
    sanitizeAppName (sanitizeAppName s) = sanitizeAppName s := by
  have h1 : sanitizeAppName s = String.mk (cleanTrimName s) := by
    unfold sanitizeAppName
    rw [List.take_of_length_le hlen]
  have hfilter : (cleanTrimName s).filter (fun c => !isHtmlSpecial c) = cleanTrimName s := by
    rw [List.filter_eq_self]
    intro a ha
    exact (List.mem_filter.mp (mem_cleanTrimName ha)).2
  obtain ⟨tl, hpref⟩ := trimRightChars_front
    (trimLeftChars (s.data.filter (fun c => !isHtmlSpecial c)))
  have htrimL : trimLeftChars (cleanTrimName s) = cleanTrimName s := by
    apply dropWhile_eq_self_of_head
    intro a ha
    have hne : cleanTrimName s ≠ [] := by
      intro hemp
      rw [hemp] at ha
      simp at ha
    have hhead := head_eq_of_append_left hpref hne
    have hsome : (List.dropWhile isJsWhitespace
        (s.data.filter (fun c => !isHtmlSpecial c))).head? = some a :=
      hhead.trans ha
    have hnw := List.head?_dropWhile_not isJsWhitespace
      (s.data.filter (fun c => !isHtmlSpecial c))
    rw [hsome] at hnw
    exact hnw
  have htrimR : trimRightChars (cleanTrimName s) = cleanTrimName s := by
    show trimRightChars (trimRightChars (trimLeftChars
      (s.data.filter (fun c => !isHtmlSpecial c)))) = _
    unfold trimRightChars
    rw [List.reverse_reverse, dropWhile_dropWhile]
    rfl
  have h2 : cleanTrimName (String.mk (cleanTrimName s)) = cleanTrimName s := by
    show trimRightChars (trimLeftChars ((cleanTrimName s).filter
      (fun c => !isHtmlSpecial c))) = cleanTrimName s
    rw [hfilter, htrimL, htrimR]
  rw [h1]
  unfold sanitizeAppName
  rw [h2, List.take_of_length_le hlen]

/-- Witness for `sanitizeAppName_idempotent_without_truncation` at the
9-character input `"Tool Name"`. -/
theorem sanitizeAppName_idempotent_without_truncation_witness :
    (cleanTrimName "Tool Name").length ≤ 100 ∧
    sanitizeAppName (sanitizeAppName "Tool Name") = sanitizeAppName "Tool Name" :=
  ⟨by decide, sanitizeAppName_idempotent_without_truncation "Tool Name" (by decide)⟩

end CatalogSec
